import Mathlib

/-!
Verification development for the `tk-multi-loader2` loader panel sources
(`publishmodel.py`, `model_publishhistory.py`).  The Python classes
`SgLatestPublishModel` and `SgPublishHistoryModel` are shallowly embedded:
pure data manipulation becomes Lean functions on explicit record types, and
the sequences of framework calls a method performs become explicit call
lists.  The external `ShotgunModel` framework (cache / diff / thumbnail
engine) is not part of the supplied sources; where a property concerns it,
the relevant contract is modelled from the specification and marked as such.
-/

/-- A Shotgun entity link `{type, id, name}` as it appears nested inside a
publish record, e.g. the value of the publish-type field. -/
structure SgEntity where
  id : Nat
  name : String
deriving DecidableEq, Repr

/-- One publish record as returned by the backend `find()` call issued by
`SgLatestPublishModel.load_data` (fields `name`, `entity`, `version_number`,
`image` and the publish-type field).  The publish-type field is present on
every record (the Python code accesses it with `sg_item[...]`, which assumes
presence); a record without a publish-type *link* carries `none`, mirroring
a Shotgun `None` value.  `id` keeps records distinguishable. -/
structure SgPublish where
  id : Nat
  name : String
  version_number : Nat
  type_link : Option SgEntity
deriving DecidableEq, Repr

/-- The publish-type name used for grouping: `type_link["name"]` when the
link is set, the literal `"No Type"` otherwise
(`publishmodel.py`, `_before_data_processing`, first pass). -/
def typeName (p : SgPublish) : String :=
  match p.type_link with
  | some t => t.name
  | none => "No Type"

/-- The publish-type id pushed into the aggregate counts: `type_link["id"]`
when the link is set, `None` otherwise. -/
def typeId (p : SgPublish) : Option Nat :=
  p.type_link.map (fun t => t.id)

/-- The identity label `"%s, %s" % (sg_item["name"], type_name)` under which
`_before_data_processing` keys its `unique_data` dict. -/
def label (p : SgPublish) : String :=
  p.name ++ ", " ++ typeName p

/-- Python dict assignment `d[k] = v`: if the key is present its value is
replaced in place, otherwise the pair is appended (insertion order
semantics). -/
def dictInsert {α : Type} (d : List (String × α)) (k : String) (v : α) :
    List (String × α) :=
  if ∃ e ∈ d, e.1 = k then
    d.map (fun e => if e.1 = k then (k, v) else e)
  else
    d ++ [(k, v)]

/-- The keys of an association list modelling a dict. -/
def dictKeys {α : Type} (d : List (String × α)) : List String :=
  d.map (fun e => e.1)

theorem mem_dictInsert {α : Type} {d : List (String × α)} {k k' : String}
    {v v' : α} :
    (k', v') ∈ dictInsert d k v ↔
      (k' ≠ k ∧ (k', v') ∈ d) ∨ (k' = k ∧ v' = v) := by
  unfold dictInsert
  split
  case isTrue h =>
    simp only [List.mem_map]
    constructor
    · rintro ⟨e, he, hfe⟩
      by_cases hek : e.1 = k
      · rw [if_pos hek] at hfe
        injection hfe with h1 h2
        exact Or.inr ⟨h1.symm, h2.symm⟩
      · rw [if_neg hek] at hfe
        subst hfe
        exact Or.inl ⟨hek, he⟩
    · rintro (⟨hne, hmem⟩ | ⟨rfl, rfl⟩)
      · exact ⟨(k', v'), hmem, by simp [hne]⟩
      · obtain ⟨e, he, hek⟩ := h
        exact ⟨e, he, by simp [hek]⟩
  case isFalse h =>
    push_neg at h
    simp only [List.mem_append, List.mem_singleton]
    constructor
    · rintro (hmem | heq)
      · exact Or.inl ⟨h _ hmem, hmem⟩
      · injection heq with h1 h2
        exact Or.inr ⟨h1, h2⟩
    · rintro (⟨_, hmem⟩ | ⟨rfl, rfl⟩)
      · exact Or.inl hmem
      · exact Or.inr rfl

theorem dictKeys_dictInsert {α : Type} (d : List (String × α)) (k : String)
    (v : α) :
    dictKeys (dictInsert d k v) =
      if k ∈ dictKeys d then dictKeys d else dictKeys d ++ [k] := by
  unfold dictInsert dictKeys
  by_cases h : ∃ e ∈ d, e.1 = k
  · rw [if_pos h, if_pos]
    · rw [List.map_map]
      apply List.map_congr_left
      intro e _
      by_cases hek : e.1 = k
      · simp [hek]
      · simp [hek]
    · obtain ⟨e, he, hek⟩ := h
      exact List.mem_map.2 ⟨e, he, hek⟩
  · rw [if_neg h, if_neg]
    · simp
    · intro hk
      obtain ⟨e, he, hek⟩ := List.mem_map.1 hk
      exact h ⟨e, he, hek⟩

theorem dictKeys_nodup_dictInsert {α : Type} {d : List (String × α)}
    (h : (dictKeys d).Nodup) (k : String) (v : α) :
    (dictKeys (dictInsert d k v)).Nodup := by
  rw [dictKeys_dictInsert]
  split
  · exact h
  case isFalse hk =>
    rw [List.nodup_append]
    exact ⟨h, List.nodup_singleton k, by simpa using fun hmem => hk hmem⟩

/-- One step of the first pass of `_before_data_processing`: store the
record in `unique_data` under its label, as the pair
`{"sg_item": sg_item, "type_id": type_id}`. -/
def firstPassStep (d : List (String × (SgPublish × Option Nat)))
    (p : SgPublish) : List (String × (SgPublish × Option Nat)) :=
  dictInsert d (label p) (p, typeId p)

/-- FIRST PASS of `_before_data_processing` (`publishmodel.py`): walk
`sg_data_list` in order and key each record into the `unique_data` dict by
its `(name, type name)` label, later records overwriting earlier ones. -/
def firstPass (l : List SgPublish) : List (String × (SgPublish × Option Nat)) :=
  l.foldl firstPassStep []

/-- `defaultdict(int)` increment `type_id_aggregates[type_id] += 1`: bump
the count stored under the key (keys are unique in a dict), or append the
key with count 1 when it is absent. -/
def bump : List (Option Nat × Nat) → Option Nat → List (Option Nat × Nat)
  | [], k => [(k, 1)]
  | e :: rest, k =>
    if e.1 = k then (e.1, e.2 + 1) :: rest else e :: bump rest k

/-- SECOND PASS of `_before_data_processing`: walk `unique_data.values()`,
appending each stored `sg_item` to `new_sg_data` and incrementing the
`type_id_aggregates` count for its stored `type_id`. -/
def secondPass (vals : List (SgPublish × Option Nat)) :
    List SgPublish × List (Option Nat × Nat) :=
  vals.foldl (fun acc v => (acc.1 ++ [v.1], bump acc.2 v.2)) ([], [])

/-- A tree-view folder item handed to `SgLatestPublishModel.load_data`:
its display text, plus the Shotgun data carried on the tree-view node
(possibly absent). -/
structure SgLink where
  link_type : String
  link_id : Nat
  image : Option String
deriving DecidableEq, Repr

/-- Data of one entry of `treeview_folder_items`. -/
structure TreeViewItemData where
  text : String
  sg_data : Option SgLink
deriving DecidableEq, Repr

/-- Everything observable that `SgLatestPublishModel._before_data_processing`
does: the filtered list it returns, the aggregate mapping it passes to
`publish_type_model.set_active_types`, and whether it shows the
"no publishes found" overlay. -/
structure BeforeDataResult where
  new_sg_data : List SgPublish
  active_types : List (Option Nat × Nat)
  no_pubs_overlay : Bool
deriving Repr

namespace SgLatestPublishModel

/-- `SgLatestPublishModel._before_data_processing` (`publishmodel.py`).
When there are no records and no folders it shows the "no publishes" overlay,
passes `{}` to `set_active_types` and returns `[]`.  Otherwise it keeps one
record per `(name, type name)` label (first pass, later records overwriting
earlier ones in the dict), then counts types and assembles the filtered list
from the dict values (second pass) and passes the counts to
`set_active_types`. -/
def before_data_processing (sg_data_list : List SgPublish)
    (treeview_folder_items : List TreeViewItemData) : BeforeDataResult :=
  if sg_data_list.length = 0 ∧ treeview_folder_items.length = 0 then
    { new_sg_data := [], active_types := [], no_pubs_overlay := true }
  else
    let unique_data := firstPass sg_data_list
    let r := secondPass (unique_data.map (fun e => e.2))
    { new_sg_data := r.1, active_types := r.2, no_pubs_overlay := false }

end SgLatestPublishModel

theorem firstPass_append (l : List SgPublish) (p : SgPublish) :
    firstPass (l ++ [p]) = firstPassStep (firstPass l) p := by
  unfold firstPass
  rw [List.foldl_append]
  rfl

/-- Every entry of the `unique_data` dict is well formed: its key is the
label of its stored record, its stored type id is that record's type id,
and the record came from the input list. -/
theorem firstPass_entry_wf (l : List SgPublish) :
    ∀ k v, (k, v) ∈ firstPass l →
      k = label v.1 ∧ v.2 = typeId v.1 ∧ v.1 ∈ l := by
  induction l using List.reverseRecOn with
  | nil => intro k v hv; simp [firstPass] at hv
  | append_singleton l p ih =>
    intro k v hv
    rw [firstPass_append] at hv
    unfold firstPassStep at hv
    rcases mem_dictInsert.1 hv with ⟨_, hmem⟩ | ⟨rfl, rfl⟩
    · obtain ⟨h1, h2, h3⟩ := ih k v hmem
      exact ⟨h1, h2, List.mem_append_left _ h3⟩
    · exact ⟨rfl, rfl, List.mem_append_right _ (List.mem_singleton.2 rfl)⟩

/-- The keys of the `unique_data` dict never repeat. -/
theorem firstPass_keys_nodup (l : List SgPublish) :
    (dictKeys (firstPass l)).Nodup := by
  induction l using List.reverseRecOn with
  | nil => simp [firstPass, dictKeys]
  | append_singleton l p ih =>
    rw [firstPass_append]
    exact dictKeys_nodup_dictInsert ih _ _

/-- Every input record's label ends up as a key of the `unique_data` dict. -/
theorem firstPass_covers (l : List SgPublish) :
    ∀ p ∈ l, label p ∈ dictKeys (firstPass l) := by
  induction l using List.reverseRecOn with
  | nil => intro p hp; simp at hp
  | append_singleton l q ih =>
    intro p hp
    rw [firstPass_append]
    unfold firstPassStep
    rw [dictKeys_dictInsert]
    rcases List.mem_append.1 hp with hp | hp
    · have := ih p hp
      split
      · exact this
      · exact List.mem_append_left _ this
    · rw [List.mem_singleton.1 hp]
      split
      case isTrue h => exact h
      case isFalse h => exact List.mem_append_right _ (List.mem_singleton.2 rfl)

/-- Last-wins: a `unique_data` entry stores exactly the last input record
bearing its key label. -/
theorem firstPass_last (l : List SgPublish) :
    ∀ k v, (k, v) ∈ firstPass l →
      (l.filter (fun q => label q = k)).getLast? = some v.1 := by
  induction l using List.reverseRecOn with
  | nil => intro k v hv; simp [firstPass] at hv
  | append_singleton l p ih =>
    intro k v hv
    rw [firstPass_append] at hv
    unfold firstPassStep at hv
    rw [List.filter_append]
    rcases mem_dictInsert.1 hv with ⟨hne, hmem⟩ | ⟨rfl, rfl⟩
    · have hfp : (List.filter (fun q => decide (label q = k)) [p]) = [] := by
        simp only [List.filter_eq_nil_iff]
        intro q hq
        rw [List.mem_singleton.1 hq]
        simpa using fun h => hne h.symm
      rw [hfp, List.append_nil]
      exact ih k v hmem
    · have hfp : (List.filter (fun q => decide (label q = label p)) [p]) = [p] := by
        simp
      rw [hfp, List.getLast?_append]
      simp

/-- Max-version: when the input list is sorted ascending by
`version_number`, each `unique_data` entry dominates every input record
sharing its label. -/
theorem firstPass_max (l : List SgPublish)
    (hs : l.Pairwise (fun a b => a.version_number ≤ b.version_number)) :
    ∀ k v, (k, v) ∈ firstPass l →
      ∀ q ∈ l, label q = k → q.version_number ≤ v.1.version_number := by
  induction l using List.reverseRecOn with
  | nil => intro k v hv; simp [firstPass] at hv
  | append_singleton l p ih =>
    intro k v hv q hq hlq
    rw [firstPass_append] at hv
    unfold firstPassStep at hv
    rw [List.pairwise_append] at hs
    obtain ⟨hsl, _, hcross⟩ := hs
    rcases mem_dictInsert.1 hv with ⟨hne, hmem⟩ | ⟨rfl, rfl⟩
    · rcases List.mem_append.1 hq with hq | hq
      · exact ih hsl k v hmem q hq hlq
      · rw [List.mem_singleton.1 hq] at hlq
        exact absurd hlq.symm hne
    · rcases List.mem_append.1 hq with hq | hq
      · exact hcross q hq p (List.mem_singleton.2 rfl)
      · rw [List.mem_singleton.1 hq]

/-- `defaultdict` lookup with default 0. -/
def aggLookup (agg : List (Option Nat × Nat)) (k : Option Nat) : Nat :=
  match agg.find? (fun e => decide (e.1 = k)) with
  | some e => e.2
  | none => 0

/-- Total of all counts in the aggregate mapping. -/
def aggTotal (agg : List (Option Nat × Nat)) : Nat :=
  (agg.map (fun e => e.2)).sum

theorem aggLookup_bump_same (agg : List (Option Nat × Nat)) (k : Option Nat) :
    aggLookup (bump agg k) k = aggLookup agg k + 1 := by
  induction agg with
  | nil => simp [bump, aggLookup, List.find?]
  | cons e rest ih =>
    by_cases hek : e.1 = k
    · simp [bump, hek, aggLookup, List.find?]
    · have hd : (decide (e.1 = k)) = false := by simpa using hek
      simp only [bump, if_neg hek, aggLookup, List.find?, hd]
      simpa [aggLookup] using ih

theorem aggLookup_bump_other (agg : List (Option Nat × Nat))
    (k k' : Option Nat) (hne : k' ≠ k) :
    aggLookup (bump agg k) k' = aggLookup agg k' := by
  induction agg with
  | nil =>
    have hd : (decide (k = k')) = false := by simpa using fun h => hne h.symm
    simp [bump, aggLookup, List.find?, hd]
  | cons e rest ih =>
    by_cases hek : e.1 = k
    · have hd : (decide (e.1 = k')) = false := by
        rw [hek]; simpa using fun h => hne h.symm
      have hd' : (decide (k = k')) = false := by simpa using fun h => hne h.symm
      simp [bump, hek, aggLookup, List.find?, hd, hd']
    · cases hdk : decide (e.1 = k') with
      | true => simp [bump, if_neg hek, aggLookup, List.find?, hdk]
      | false =>
        simp only [bump, if_neg hek, aggLookup, List.find?, hdk, cond_false]
        simpa [aggLookup] using ih

theorem aggTotal_bump (agg : List (Option Nat × Nat)) (k : Option Nat) :
    aggTotal (bump agg k) = aggTotal agg + 1 := by
  induction agg with
  | nil => simp [bump, aggTotal]
  | cons e rest ih =>
    by_cases hek : e.1 = k
    · simp only [bump, if_pos hek, aggTotal, List.map_cons, List.sum_cons]
      omega
    · simp only [bump, if_neg hek, aggTotal, List.map_cons, List.sum_cons]
      have := ih
      simp only [aggTotal] at this
      omega

/-- The interleaved second-pass loop, characterised: it appends the stored
records in dict-value order, each aggregate count is the number of values
carrying that type id, and the counts total the number of values. -/
theorem secondPass_fold (vals : List (SgPublish × Option Nat)) :
    ∀ out agg,
      (vals.foldl (fun acc v => (acc.1 ++ [v.1], bump acc.2 v.2))
          (out, agg)).1 = out ++ vals.map (fun v => v.1) ∧
      (∀ k, aggLookup (vals.foldl (fun acc v => (acc.1 ++ [v.1], bump acc.2 v.2))
          (out, agg)).2 k
        = aggLookup agg k + vals.countP (fun v => decide (v.2 = k))) ∧
      aggTotal (vals.foldl (fun acc v => (acc.1 ++ [v.1], bump acc.2 v.2))
          (out, agg)).2 = aggTotal agg + vals.length := by
  induction vals with
  | nil => intro out agg; simp
  | cons v vals ih =>
    intro out agg
    simp only [List.foldl_cons]
    obtain ⟨ih1, ih2, ih3⟩ := ih (out ++ [v.1]) (bump agg v.2)
    refine ⟨?_, ?_, ?_⟩
    · rw [ih1, List.append_assoc]
      simp
    · intro k
      rw [ih2 k, List.countP_cons]
      by_cases hvk : v.2 = k
      · rw [hvk, aggLookup_bump_same]
        simp
        omega
      · rw [aggLookup_bump_other agg v.2 k (fun h => hvk h.symm)]
        have : (decide (v.2 = k)) = false := by simpa using hvk
        rw [this]
        simp
    · rw [ih3, aggTotal_bump]
      simp only [List.length_cons]
      omega

/-- The role data this development tracks on a `SgLatestPublishModel` item
(`QStandardItem`): its display text, `TYPE_ID_ROLE`, and `IS_FOLDER_ROLE`.
A role that was never assigned reads back as invalid, modelled `none`. -/
structure PublishItem where
  text : String
  type_id_role : Option Nat
  is_folder_role : Option Bool
deriving DecidableEq, Repr

namespace SgLatestPublishModel

/-- `SgLatestPublishModel._load_external_data` (`publishmodel.py`): for each
entry of `self._treeview_folder_items`, in order, append one row carrying
the folder icon and the entry's text, with `TYPE_ID_ROLE` set to `None`,
`IS_FOLDER_ROLE` set to `True` (and the associated tree-view item and its
Shotgun data copied over; icons and the optional thumbnail download request
are presentation effects not tracked here). -/
def load_external_data (treeview_folder_items : List TreeViewItemData) :
    List PublishItem :=
  treeview_folder_items.map (fun t =>
    { text := t.text, type_id_role := none, is_folder_role := some true })

/-- `SgLatestPublishModel._populate_item` (`publishmodel.py`): on every item
built from a Shotgun record, set `IS_FOLDER_ROLE` to `False` and
`TYPE_ID_ROLE` to the record's publish-type id (`None` when the record has
no publish-type link).  The loading icon is a presentation effect not
tracked here. -/
def populate_item (item : PublishItem) (sg_data : SgPublish) : PublishItem :=
  { item with is_folder_role := some false, type_id_role := typeId sg_data }

/-- The publish-type field name chosen by `SgLatestPublishModel.load_data`
from the configured publish entity type. -/
def publish_type_field (publish_entity_type : String) : String :=
  if publish_entity_type = "PublishedFile" then "published_file_type"
  else "tank_type"

/-- The field list `SgLatestPublishModel.load_data` requests from Shotgun. -/
def publish_fields (publish_entity_type : String) : List String :=
  ["name", "entity", "version_number", "image",
   publish_type_field publish_entity_type]

end SgLatestPublishModel

/-- A call a model's `load_data` method makes into the `ShotgunModel`
framework: `loadData` is the framework's load of cached data for the given
query (entity type, field list, grouping hierarchy), `refreshData` is the
request for an asynchronous refresh of the live data. -/
inductive ModelCall where
  | loadData (entity_type : String) (fields : List String)
      (hierarchy : List String)
  | refreshData
deriving DecidableEq, Repr

/-- The sequence of framework calls `SgLatestPublishModel.load_data`
(`publishmodel.py`) performs: a single `ShotgunModel.load_data` call (cached
data, hierarchy `["code"]`, ascending `version_number` order).  Its
docstring states: "This call should be followed by a call to refresh_data()
to asynchronously update the model in the background" — no refresh is
triggered here. -/
def SgLatestPublishModel.load_data_calls (publish_entity_type : String) :
    List ModelCall :=
  [ModelCall.loadData publish_entity_type
    (SgLatestPublishModel.publish_fields publish_entity_type) ["code"]]

namespace SgPublishHistoryModel

/-- The publish-type field name chosen by `SgPublishHistoryModel.load_data`
from the configured publish entity type. -/
def publish_type_field (publish_entity_type : String) : String :=
  if publish_entity_type = "PublishedFile" then "published_file_type"
  else "tank_type"

/-- The field list `SgPublishHistoryModel.load_data` requests:
`[publish_type_field] + constants.PUBLISHED_FILES_FIELDS +
app.get_setting("published_file_fields", [])`.  The two configurable tails
live outside the supplied sources and are parameters. -/
def history_fields (publish_entity_type : String)
    (published_files_fields extra_fields : List String) : List String :=
  [publish_type_field publish_entity_type] ++ published_files_fields
    ++ extra_fields

/-- The sequence of framework calls `SgPublishHistoryModel.load_data`
(`model_publishhistory.py`) performs: `ShotgunModel._load_data` (cached
data, hierarchy `["version_number"]`) immediately followed by
`self._refresh_data()`. -/
def load_data_calls (publish_entity_type : String)
    (published_files_fields extra_fields : List String) : List ModelCall :=
  [ModelCall.loadData publish_entity_type
     (history_fields publish_entity_type published_files_fields extra_fields)
     ["version_number"],
   ModelCall.refreshData]

end SgPublishHistoryModel

/-- The two thumbnail role data of a `SgPublishHistoryModel` item together
with its icon.  `α` is the image/pixmap type.  The icon produced by
`utils.create_overlayed_user_publish_thumbnail(publish_thumb, user_thumb)`
is modelled by the pair of arguments it composites. -/
structure HistoryItem (α : Type) where
  publish_thumb_role : Option α
  user_thumb_role : Option α
  icon : Option α × Option α
deriving DecidableEq, Repr

namespace SgPublishHistoryModel

/-- `SgPublishHistoryModel._populate_thumbnail_image`
(`model_publishhistory.py`).  `image_field` is the item's expected publish
image field as computed by `utils.get_thumbnail_field_for_item` (that
helper lives outside the supplied sources, so the value is a parameter; a
falsy value is `none`).  When the delivered `field` equals it the publish
thumb role is set; otherwise, when `field` equals
`"created_by.HumanUser.image"` the user thumb role is set; in every case
the icon is recomposited from the two roles. -/
def populate_thumbnail_image {α : Type} (image_field : Option String)
    (field : String) (image : α) (item : HistoryItem α) : HistoryItem α :=
  let item' :=
    if image_field = some field then
      { item with publish_thumb_role := some image }
    else if field = "created_by.HumanUser.image" then
      { item with user_thumb_role := some image }
    else item
  { item' with icon := (item'.publish_thumb_role, item'.user_thumb_role) }

end SgPublishHistoryModel

/-- Modelled from the spec: the immutable query descriptor of §3 — entity
type, filter predicates, field list, grouping hierarchy and sort order;
cache-equivalence is componentwise equality.  The Disk Cache belongs to the
external `ShotgunModel` framework and is absent from the supplied sources. -/
structure Query where
  entity_type : String
  filters : List (String × String × String)
  fields : List String
  hierarchy : List String
  order : List (String × String)
deriving DecidableEq, Repr

/-- Modelled from the spec: a node tree (§3) — each node has a display
label, field values, and exclusively owned children. -/
inductive NodeTree where
  | node (label : String) (field_values : List (String × String))
      (children : List NodeTree) : NodeTree

/-- Modelled from the spec: the Disk Cache state (§4.1), keyed by the full
query; last writer wins. -/
def DiskCache : Type := List (Query × NodeTree)

/-- Modelled from the spec: `write(query, tree)` — persist the tree under
the query's cache slot (last writer wins, so the newest entry shadows older
ones). -/
def cacheWrite (c : DiskCache) (q : Query) (t : NodeTree) : DiskCache :=
  (q, t) :: c

/-- Modelled from the spec: `read(query) -> Option<NodeTree>` — return the
most recently written tree for a cache-equivalent query, or `none`. -/
def cacheRead (c : DiskCache) (q : Query) : Option NodeTree :=
  match c.find? (fun e => decide (e.1 = q)) with
  | some e => some e.2
  | none => none

/-- On every path, the list `_before_data_processing` returns is the list of
records stored in the `unique_data` dict, in dict order. -/
theorem before_data_processing_new_sg_data (sg_data_list : List SgPublish)
    (treeview_folder_items : List TreeViewItemData) :
    (SgLatestPublishModel.before_data_processing sg_data_list
        treeview_folder_items).new_sg_data
      = (firstPass sg_data_list).map (fun e => e.2.1) := by
  unfold SgLatestPublishModel.before_data_processing
  split
  case isTrue h =>
    have : sg_data_list = [] := List.length_eq_zero.1 h.1
    subst this
    simp [firstPass]
  case isFalse h =>
    have := (secondPass_fold ((firstPass sg_data_list).map (fun e => e.2))
      [] []).1
    unfold secondPass
    simp only [this, List.nil_append, List.map_map]
    rfl

/-- Shared helper: the labels of the records returned by
`_before_data_processing` are pairwise distinct (they are the unique keys
of the `unique_data` dict). -/
theorem before_data_processing_labels_pairwise (sg_data_list : List SgPublish)
    (treeview_folder_items : List TreeViewItemData) :
    ((SgLatestPublishModel.before_data_processing sg_data_list
        treeview_folder_items).new_sg_data).Pairwise
      (fun a b => label a ≠ label b) := by
  rw [before_data_processing_new_sg_data]
  rw [List.pairwise_map]
  have hnd : (dictKeys (firstPass sg_data_list)).Nodup :=
    firstPass_keys_nodup sg_data_list
  unfold dictKeys at hnd
  have hnd' : List.Pairwise (fun a b => a.1 ≠ b.1) (firstPass sg_data_list) :=
    List.pairwise_map.mp hnd
  refine List.Pairwise.imp_of_mem ?_ hnd'
  intro a b ha hb hne
  obtain ⟨hka, _, _⟩ := firstPass_entry_wf sg_data_list a.1 a.2 (by simpa using ha)
  obtain ⟨hkb, _, _⟩ := firstPass_entry_wf sg_data_list b.1 b.2 (by simpa using hb)
  rw [← hka, ← hkb]
  exact hne

/-- Claim C6: for every input record list, the list returned by
`SgLatestPublishModel._before_data_processing` contains no two records with
the same `(name, publish-type name)` label. -/
theorem new_sg_data_labels_distinct (sg_data_list : List SgPublish)
    (treeview_folder_items : List TreeViewItemData) :
    ((SgLatestPublishModel.before_data_processing sg_data_list
        treeview_folder_items).new_sg_data).Pairwise
      (fun a b => label a ≠ label b) :=
  before_data_processing_labels_pairwise sg_data_list treeview_folder_items

/-- Claim C7: writing a tree to the disk cache under a query and then
reading with the same query returns the original tree.  The cache lives in
the external `ShotgunModel` framework, so `cacheWrite`/`cacheRead` are
modelled from the spec (§4.1, §8). -/
theorem disk_cache_roundtrip (c : DiskCache) (q : Query) (t : NodeTree) :
    cacheRead (cacheWrite c q t) q = some t := by
  unfold cacheRead cacheWrite
  simp [List.find?]

/-- Claim C8: for an empty input record list,
`SgLatestPublishModel._before_data_processing` returns an empty list and
passes an empty aggregate mapping to `set_active_types`, on both the
no-publishes-and-no-folders branch and the folders-present branch. -/
theorem before_data_processing_empty_input
    (treeview_folder_items : List TreeViewItemData) :
    (SgLatestPublishModel.before_data_processing [] treeview_folder_items).new_sg_data = [] ∧
    (SgLatestPublishModel.before_data_processing [] treeview_folder_items).active_types = [] := by
  unfold SgLatestPublishModel.before_data_processing
  by_cases h : treeview_folder_items.length = 0 <;>
    simp [h, firstPass, secondPass]

/-- Claim C1: when the input list is sorted ascending by `version_number`
(the order `load_data` requests from the backend) and every record carries
the publish-type field (which the record type guarantees), the list
returned by `SgLatestPublishModel._before_data_processing` contains, for
each distinct `(name, publish-type name)` label occurring in the input,
exactly one record — one drawn from the input, with pairwise distinct
labels — and that record's `version_number` dominates every input record
sharing its label. -/
theorem sorted_input_selects_latest (sg_data_list : List SgPublish)
    (treeview_folder_items : List TreeViewItemData)
    (hs : sg_data_list.Pairwise
      (fun a b => a.version_number ≤ b.version_number)) :
    (∀ p ∈ sg_data_list,
      ∃ q ∈ (SgLatestPublishModel.before_data_processing sg_data_list
        treeview_folder_items).new_sg_data, label q = label p) ∧
    (∀ q ∈ (SgLatestPublishModel.before_data_processing sg_data_list
        treeview_folder_items).new_sg_data, q ∈ sg_data_list) ∧
    ((SgLatestPublishModel.before_data_processing sg_data_list
        treeview_folder_items).new_sg_data).Pairwise
      (fun a b => label a ≠ label b) ∧
    (∀ q ∈ (SgLatestPublishModel.before_data_processing sg_data_list
        treeview_folder_items).new_sg_data,
      ∀ p ∈ sg_data_list, label p = label q →
        p.version_number ≤ q.version_number) := by
  rw [before_data_processing_new_sg_data]
  refine ⟨?_, ?_, ?_, ?_⟩
  · intro p hp
    have := firstPass_covers sg_data_list p hp
    obtain ⟨e, he, hke⟩ := List.mem_map.1 this
    obtain ⟨hk, _, _⟩ := firstPass_entry_wf sg_data_list e.1 e.2
      (by simpa using he)
    exact ⟨e.2.1, List.mem_map.2 ⟨e, he, rfl⟩, by rw [← hk, hke]⟩
  · intro q hq
    obtain ⟨e, he, hqe⟩ := List.mem_map.1 hq
    obtain ⟨_, _, hmem⟩ := firstPass_entry_wf sg_data_list e.1 e.2
      (by simpa using he)
    exact hqe ▸ hmem
  · have := before_data_processing_labels_pairwise sg_data_list
      treeview_folder_items
    rwa [before_data_processing_new_sg_data] at this
  · intro q hq p hp hl
    obtain ⟨e, he, hqe⟩ := List.mem_map.1 hq
    obtain ⟨hk, _, _⟩ := firstPass_entry_wf sg_data_list e.1 e.2
      (by simpa using he)
    have hmax := firstPass_max sg_data_list hs e.1 e.2 (by simpa using he)
      p hp (by rw [hk, hqe, hl])
    rw [← hqe]
    exact hmax

/-- Witness for C1 at a concrete sorted input: the hypotheses hold at
`[v1 of "A", v2 of "A", v1 of "B"]` and the selected "A" record dominates
both "A" inputs. -/
theorem sorted_input_selects_latest_witness :
    ([⟨1, "A", 1, none⟩, ⟨3, "B", 1, some ⟨7, "Maya"⟩⟩,
      ⟨2, "A", 2, none⟩] : List SgPublish).Pairwise
      (fun a b => a.version_number ≤ b.version_number) ∧
    (∀ q ∈ (SgLatestPublishModel.before_data_processing
        [⟨1, "A", 1, none⟩, ⟨3, "B", 1, some ⟨7, "Maya"⟩⟩,
         ⟨2, "A", 2, none⟩] []).new_sg_data,
      ∀ p ∈ ([⟨1, "A", 1, none⟩, ⟨3, "B", 1, some ⟨7, "Maya"⟩⟩,
         ⟨2, "A", 2, none⟩] : List SgPublish),
        label p = label q → p.version_number ≤ q.version_number) :=
  ⟨by decide,
   (sorted_input_selects_latest
     [⟨1, "A", 1, none⟩, ⟨3, "B", 1, some ⟨7, "Maya"⟩⟩, ⟨2, "A", 2, none⟩]
     [] (by decide)).2.2.2⟩

/-- Counterexample to C2 as stated: the two orderings of the same two
records (a permutation of each other) make `_before_data_processing` select
different record sets — under ascending order it keeps version 2, under
descending order it keeps version 1. -/
theorem before_data_processing_order_dependent :
    ([⟨1, "A", 1, none⟩, ⟨2, "A", 2, none⟩] : List SgPublish).Perm
      [⟨2, "A", 2, none⟩, ⟨1, "A", 1, none⟩] ∧
    (SgLatestPublishModel.before_data_processing
      [⟨1, "A", 1, none⟩, ⟨2, "A", 2, none⟩] []).new_sg_data
      = [⟨2, "A", 2, none⟩] ∧
    (SgLatestPublishModel.before_data_processing
      [⟨2, "A", 2, none⟩, ⟨1, "A", 1, none⟩] []).new_sg_data
      = [⟨1, "A", 1, none⟩] ∧
    ¬ ((SgLatestPublishModel.before_data_processing
        [⟨1, "A", 1, none⟩, ⟨2, "A", 2, none⟩] []).new_sg_data).Perm
       ((SgLatestPublishModel.before_data_processing
        [⟨2, "A", 2, none⟩, ⟨1, "A", 1, none⟩] []).new_sg_data) := by
  refine ⟨List.Perm.swap _ _ _, by decide, by decide, ?_⟩
  intro hperm
  have := hperm.mem_iff (a := (⟨2, "A", 2, none⟩ : SgPublish))
  revert this
  decide

/-- Amended C2: the aggregation is order-dependent, not order-independent:
`_before_data_processing` keeps, for each `(name, publish-type name)` label
occurring in the input, exactly the last input record bearing that label,
so permuting the input can change which record is selected (it selects the
maximum-version record only for inputs sorted ascending by version). -/
theorem before_data_processing_keeps_last_per_label
    (sg_data_list : List SgPublish)
    (treeview_folder_items : List TreeViewItemData) :
    (∀ p ∈ sg_data_list,
      ∃ q ∈ (SgLatestPublishModel.before_data_processing sg_data_list
        treeview_folder_items).new_sg_data, label q = label p) ∧
    (∀ q ∈ (SgLatestPublishModel.before_data_processing sg_data_list
        treeview_folder_items).new_sg_data,
      (sg_data_list.filter (fun r => label r = label q)).getLast?
        = some q) := by
  rw [before_data_processing_new_sg_data]
  constructor
  · intro p hp
    have := firstPass_covers sg_data_list p hp
    obtain ⟨e, he, hke⟩ := List.mem_map.1 this
    obtain ⟨hk, _, _⟩ := firstPass_entry_wf sg_data_list e.1 e.2
      (by simpa using he)
    exact ⟨e.2.1, List.mem_map.2 ⟨e, he, rfl⟩, by rw [← hk, hke]⟩
  · intro q hq
    obtain ⟨e, he, hqe⟩ := List.mem_map.1 hq
    obtain ⟨hk, _, _⟩ := firstPass_entry_wf sg_data_list e.1 e.2
      (by simpa using he)
    have := firstPass_last sg_data_list e.1 e.2 (by simpa using he)
    rw [← hqe, ← hk]
    exact this

/-- Witness for the amended C2 at a concrete unsorted input: the record
kept for label "A, No Type" is the last input record with that label. -/
theorem before_data_processing_keeps_last_per_label_witness :
    ((⟨1, "A", 1, none⟩ : SgPublish)
      ∈ (SgLatestPublishModel.before_data_processing
        [⟨2, "A", 2, none⟩, ⟨1, "A", 1, none⟩] []).new_sg_data) ∧
    (([⟨2, "A", 2, none⟩, ⟨1, "A", 1, none⟩] : List SgPublish).filter
        (fun r => label r = label ⟨1, "A", 1, none⟩)).getLast?
      = some ⟨1, "A", 1, none⟩ :=
  ⟨by decide,
   (before_data_processing_keeps_last_per_label
     [⟨2, "A", 2, none⟩, ⟨1, "A", 1, none⟩] []).2
     ⟨1, "A", 1, none⟩ (by decide)⟩

/-- Claim C9: on the main path, the aggregate mapping passed to
`set_active_types` counts exactly the returned records: each type-id key's
count (0 for absent keys) is the number of returned records with that
publish-type id, and the counts total the returned list's length. -/
theorem active_types_counts_returned (sg_data_list : List SgPublish)
    (treeview_folder_items : List TreeViewItemData)
    (h : ¬ (sg_data_list.length = 0 ∧ treeview_folder_items.length = 0)) :
    (∀ k, aggLookup ((SgLatestPublishModel.before_data_processing sg_data_list
        treeview_folder_items).active_types) k
      = ((SgLatestPublishModel.before_data_processing sg_data_list
        treeview_folder_items).new_sg_data).countP
          (fun r => decide (typeId r = k))) ∧
    aggTotal ((SgLatestPublishModel.before_data_processing sg_data_list
        treeview_folder_items).active_types)
      = ((SgLatestPublishModel.before_data_processing sg_data_list
        treeview_folder_items).new_sg_data).length := by
  unfold SgLatestPublishModel.before_data_processing
  rw [if_neg h]
  dsimp only
  unfold secondPass
  obtain ⟨h1, h2, h3⟩ := secondPass_fold
    ((firstPass sg_data_list).map (fun e => e.2)) [] []
  have hwf : ∀ v ∈ (firstPass sg_data_list).map (fun e => e.2),
      v.2 = typeId v.1 := by
    intro v hv
    obtain ⟨e, he, hev⟩ := List.mem_map.1 hv
    obtain ⟨_, hw, _⟩ := firstPass_entry_wf sg_data_list e.1 e.2
      (by simpa using he)
    rw [← hev]
    exact hw
  constructor
  · intro k
    rw [h2 k, h1]
    have hcongr : ((firstPass sg_data_list).map (fun e => e.2)).countP
        (fun v => decide (v.2 = k))
      = ((firstPass sg_data_list).map (fun e => e.2)).countP
        (fun v => decide (typeId v.1 = k)) := by
      apply List.countP_congr
      intro v hv
      rw [hwf v hv]
    rw [hcongr]
    have hz : aggLookup [] k = 0 := by simp [aggLookup, List.find?]
    rw [hz]
    simp only [List.nil_append, Nat.zero_add, List.countP_map]
    rfl
  · rw [h3, h1]
    have : aggTotal ([] : List (Option Nat × Nat)) = 0 := by
      simp [aggTotal]
    rw [this]
    simp

/-- Witness for C9 at a concrete input on the main path. -/
theorem active_types_counts_returned_witness :
    ¬ (([⟨3, "B", 1, some ⟨7, "Maya"⟩⟩] : List SgPublish).length = 0 ∧
       ([] : List TreeViewItemData).length = 0) ∧
    aggLookup ((SgLatestPublishModel.before_data_processing
        [⟨3, "B", 1, some ⟨7, "Maya"⟩⟩] []).active_types) (some 7)
      = ((SgLatestPublishModel.before_data_processing
        [⟨3, "B", 1, some ⟨7, "Maya"⟩⟩] []).new_sg_data).countP
          (fun r => decide (typeId r = some 7)) ∧
    aggTotal ((SgLatestPublishModel.before_data_processing
        [⟨3, "B", 1, some ⟨7, "Maya"⟩⟩] []).active_types)
      = ((SgLatestPublishModel.before_data_processing
        [⟨3, "B", 1, some ⟨7, "Maya"⟩⟩] []).new_sg_data).length :=
  ⟨by decide,
   (active_types_counts_returned [⟨3, "B", 1, some ⟨7, "Maya"⟩⟩] []
     (by decide)).1 (some 7),
   (active_types_counts_returned [⟨3, "B", 1, some ⟨7, "Maya"⟩⟩] []
     (by decide)).2⟩

/-- Counterexample to C3 as stated: `SgLatestPublishModel.load_data` makes
no refresh call at all — its docstring instead instructs the caller to
follow up with `refresh_data()`. -/
theorem latest_load_data_triggers_no_refresh :
    ModelCall.refreshData ∉
      SgLatestPublishModel.load_data_calls "PublishedFile" := by
  decide

/-- Amended C3: `SgPublishHistoryModel.load_data` loads the cached data and
then, within the same call, triggers the asynchronous refresh; but
`SgLatestPublishModel.load_data` only performs the cached load — it never
triggers a refresh, leaving that to its caller. -/
theorem load_data_refresh_behaviour (publish_entity_type : String)
    (published_files_fields extra_fields : List String) :
    (∃ i j : Nat, i < j ∧
      (SgPublishHistoryModel.load_data_calls publish_entity_type
        published_files_fields extra_fields)[i]?
        = some (ModelCall.loadData publish_entity_type
            (SgPublishHistoryModel.history_fields publish_entity_type
              published_files_fields extra_fields) ["version_number"]) ∧
      (SgPublishHistoryModel.load_data_calls publish_entity_type
        published_files_fields extra_fields)[j]?
        = some ModelCall.refreshData) ∧
    ModelCall.refreshData ∉
      SgLatestPublishModel.load_data_calls publish_entity_type := by
  refine ⟨⟨0, 1, Nat.zero_lt_one, rfl, rfl⟩, ?_⟩
  intro hmem
  rw [SgLatestPublishModel.load_data_calls, List.mem_singleton] at hmem
  exact ModelCall.noConfusion hmem

/-- Claim C4: thumbnail deliveries are matched to item state by field key:
the publish thumb role changes only when the delivered field equals the
item's expected image field, the user thumb role changes only when the
delivered field is `"created_by.HumanUser.image"`, and a delivery matching
neither leaves both role data unchanged. -/
theorem populate_thumbnail_image_matches_by_field {α : Type}
    (image_field : Option String) (field : String) (image : α)
    (item : HistoryItem α) :
    ((SgPublishHistoryModel.populate_thumbnail_image image_field field image
        item).publish_thumb_role ≠ item.publish_thumb_role →
      image_field = some field) ∧
    ((SgPublishHistoryModel.populate_thumbnail_image image_field field image
        item).user_thumb_role ≠ item.user_thumb_role →
      field = "created_by.HumanUser.image") ∧
    (image_field ≠ some field → field ≠ "created_by.HumanUser.image" →
      (SgPublishHistoryModel.populate_thumbnail_image image_field field image
        item).publish_thumb_role = item.publish_thumb_role ∧
      (SgPublishHistoryModel.populate_thumbnail_image image_field field image
        item).user_thumb_role = item.user_thumb_role) := by
  unfold SgPublishHistoryModel.populate_thumbnail_image
  by_cases h1 : image_field = some field
  · simp [h1]
  · by_cases h2 : field = "created_by.HumanUser.image"
    · subst h2
      simp [h1]
    · simp [h1, h2]

/-- Witness for C4: a delivery whose field matches neither key leaves both
role data unchanged. -/
theorem populate_thumbnail_image_matches_by_field_witness :
    (some "image" : Option String) ≠ some "other" ∧
    "other" ≠ "created_by.HumanUser.image" ∧
    ((SgPublishHistoryModel.populate_thumbnail_image (some "image") "other"
        (0 : Nat) ⟨some 1, none, (none, none)⟩).publish_thumb_role
      = some 1 ∧
     (SgPublishHistoryModel.populate_thumbnail_image (some "image") "other"
        (0 : Nat) ⟨some 1, none, (none, none)⟩).user_thumb_role = none) :=
  ⟨by decide, by decide,
   (populate_thumbnail_image_matches_by_field (some "image") "other"
     (0 : Nat) ⟨some 1, none, (none, none)⟩).2.2 (by decide) (by decide)⟩

/-- Claim C5: both `load_data` methods resolve the publish-type field from
the configured publish entity type — `"published_file_type"` exactly when
the entity type is `"PublishedFile"`, `"tank_type"` otherwise — and each
includes the resolved field in the field list of the query it hands to the
framework. -/
theorem publish_type_field_resolved (publish_entity_type : String)
    (published_files_fields extra_fields : List String) :
    (SgLatestPublishModel.publish_type_field publish_entity_type
        = "published_file_type" ↔ publish_entity_type = "PublishedFile") ∧
    (SgPublishHistoryModel.publish_type_field publish_entity_type
        = "published_file_type" ↔ publish_entity_type = "PublishedFile") ∧
    (publish_entity_type ≠ "PublishedFile" →
      SgLatestPublishModel.publish_type_field publish_entity_type
          = "tank_type" ∧
      SgPublishHistoryModel.publish_type_field publish_entity_type
          = "tank_type") ∧
    (∃ fields hierarchy,
      ModelCall.loadData publish_entity_type fields hierarchy ∈
        SgLatestPublishModel.load_data_calls publish_entity_type ∧
      SgLatestPublishModel.publish_type_field publish_entity_type ∈ fields) ∧
    (∃ fields hierarchy,
      ModelCall.loadData publish_entity_type fields hierarchy ∈
        SgPublishHistoryModel.load_data_calls publish_entity_type
          published_files_fields extra_fields ∧
      SgPublishHistoryModel.publish_type_field publish_entity_type ∈ fields) := by
  refine ⟨?_, ?_, ?_, ?_, ?_⟩
  · unfold SgLatestPublishModel.publish_type_field
    by_cases h : publish_entity_type = "PublishedFile" <;> simp [h]
  · unfold SgPublishHistoryModel.publish_type_field
    by_cases h : publish_entity_type = "PublishedFile" <;> simp [h]
  · intro h
    unfold SgLatestPublishModel.publish_type_field
      SgPublishHistoryModel.publish_type_field
    simp [h]
  · refine ⟨SgLatestPublishModel.publish_fields publish_entity_type,
      ["code"], ?_, ?_⟩
    · unfold SgLatestPublishModel.load_data_calls
      exact List.mem_singleton.2 rfl
    · unfold SgLatestPublishModel.publish_fields
      simp
  · refine ⟨SgPublishHistoryModel.history_fields publish_entity_type
      published_files_fields extra_fields, ["version_number"], ?_, ?_⟩
    · unfold SgPublishHistoryModel.load_data_calls
      exact List.mem_cons_self _ _
    · unfold SgPublishHistoryModel.history_fields
      simp

/-- Witness for C5 at a non-default entity type: the resolved field is
`"tank_type"`. -/
theorem publish_type_field_resolved_witness :
    ("TankPublishedFile" : String) ≠ "PublishedFile" ∧
    SgLatestPublishModel.publish_type_field "TankPublishedFile"
      = "tank_type" ∧
    SgPublishHistoryModel.publish_type_field "TankPublishedFile"
      = "tank_type" :=
  ⟨by decide,
   ((publish_type_field_resolved "TankPublishedFile" [] []).2.2.1
     (by decide)).1,
   ((publish_type_field_resolved "TankPublishedFile" [] []).2.2.1
     (by decide)).2⟩

/-- Claim C10: `SgLatestPublishModel._load_external_data` appends exactly
one row per supplied tree-view folder entry, in the list's order, each with
`IS_FOLDER_ROLE` set to `True` and `TYPE_ID_ROLE` set to `None`, while
`SgLatestPublishModel._populate_item` sets `IS_FOLDER_ROLE` to `False` on
every record-backed item. -/
theorem folder_items_partition (treeview_folder_items : List TreeViewItemData) :
    (SgLatestPublishModel.load_external_data treeview_folder_items).length
      = treeview_folder_items.length ∧
    (SgLatestPublishModel.load_external_data treeview_folder_items).map
        (fun it => it.text)
      = treeview_folder_items.map (fun t => t.text) ∧
    (∀ it ∈ SgLatestPublishModel.load_external_data treeview_folder_items,
      it.is_folder_role = some true ∧ it.type_id_role = none) ∧
    (∀ (item : PublishItem) (sg_data : SgPublish),
      (SgLatestPublishModel.populate_item item sg_data).is_folder_role
        = some false) := by
  refine ⟨?_, ?_, ?_, ?_⟩
  · unfold SgLatestPublishModel.load_external_data
    simp
  · unfold SgLatestPublishModel.load_external_data
    rw [List.map_map]
    rfl
  · intro it hit
    unfold SgLatestPublishModel.load_external_data at hit
    obtain ⟨t, _, hte⟩ := List.mem_map.1 hit
    rw [← hte]
    exact ⟨rfl, rfl⟩
  · intro item sg_data
    rfl

/-- Witness for C10: the single folder entry yields the single row with the
folder roles set. -/
theorem folder_items_partition_witness :
    ((⟨"shots", none, some true⟩ : PublishItem)
      ∈ SgLatestPublishModel.load_external_data [⟨"shots", none⟩]) ∧
    ((⟨"shots", none, some true⟩ : PublishItem).is_folder_role = some true ∧
     (⟨"shots", none, some true⟩ : PublishItem).type_id_role = none) :=
  ⟨by decide,
   (folder_items_partition [⟨"shots", none⟩]).2.2.1
     ⟨"shots", none, some true⟩ (by decide)⟩

/-- Witness for the amended C3 at a concrete entity type. -/
theorem load_data_refresh_behaviour_witness :
    ModelCall.refreshData ∉
      SgLatestPublishModel.load_data_calls "TankPublishedFile" :=
  (load_data_refresh_behaviour "TankPublishedFile" [] []).2
